import Mathlib

/-!
Verification of the Language Disambiguation & Translation Routing pipeline
of the audio-translator bot (src/main.py).

The decision logic of the program is shallowly embedded below:

* Python string primitives (str.lower, str.split, substring containment)
  are modelled on `List Char` / `String`; Python floats that occur only in
  comparisons against exactly representable constants (1.25, 0.75, 0.5,
  2.0) are modelled over `ℚ` or, equivalently, over `Nat` cross products.
* The stopword scorer (`stop_hits`, `pick_lang_by_score`, main.py lines
  67-108), the auto/forced decision tail of `vosk_transcribe_both`
  (lines 183-210), the robustness helpers (`is_spanishish`,
  `jaccard_similarity`, lines 111-123), the reconciliation step of
  `_process_audio_file` (lines 472-477), the translation fallback router
  (`translate_google`, `translate_smart`, lines 253-296), the glossary
  post-processor (lines 262-296) and the tempo clamp
  (`adjust_speed_with_ffmpeg`, lines 337-361) are each translated into
  executable Lean definitions.
* External effects (speech recognizers, network translation providers,
  language detection, ffmpeg) are passed in as explicit function
  parameters; the embedded functions are the deterministic code around
  those calls.
-/

namespace BotMain

/-! ### Python string primitives -/

/-- Whitespace in the sense of Python `str.split()` / `\s` (ASCII range:
space, tab, newline, carriage return, vertical tab, form feed). -/
def isPySpace (c : Char) : Bool :=
  c = ' ' || c = '\t' || c = '\n' || c = '\r' || c = '\x0B' || c = '\x0C'

/-- Python `str.lower()` restricted to the alphabets the program uses:
ASCII letters and the accented Spanish letters appearing in the source. -/
def lowerChar (c : Char) : Char :=
  if 'A' ≤ c ∧ c ≤ 'Z' then Char.ofNat (c.toNat + 32)
  else if c = 'Á' then 'á'
  else if c = 'É' then 'é'
  else if c = 'Í' then 'í'
  else if c = 'Ó' then 'ó'
  else if c = 'Ú' then 'ú'
  else if c = 'Ñ' then 'ñ'
  else if c = 'Ü' then 'ü'
  else c

/-- Python `text.lower()` on strings. -/
def lowerStr (s : String) : String := String.mk (s.data.map lowerChar)

/-- Helper for `pysplitL`: `acc` is the current word, reversed. -/
def pysplitAux : List Char → List Char → List (List Char)
  | [], acc => if acc.isEmpty then [] else [acc.reverse]
  | c :: cs, acc =>
    if isPySpace c then
      if acc.isEmpty then pysplitAux cs [] else acc.reverse :: pysplitAux cs []
    else pysplitAux cs (c :: acc)

/-- Python `str.split()` with no separator argument: split on runs of
whitespace, dropping empty parts. -/
def pysplitL (l : List Char) : List (List Char) := pysplitAux l []

/-- Python `text.split()` as a list of words. -/
def pysplit (s : String) : List String := (pysplitL s.data).map fun w => String.mk w

/-- Python `len(text.split())`: the word count used throughout the scorer. -/
def wc (s : String) : Nat := (pysplit s).length

/-- Matching of `p` against the front of `l` (case-exact). -/
def isPreL : List Char → List Char → Bool
  | [], _ => true
  | _ :: _, [] => false
  | a :: as, b :: bs => a = b && isPreL as bs

/-- Substring containment on char lists (Python `w in s`). -/
def isSubL (p : List Char) : List Char → Bool
  | [] => p.isEmpty
  | l@(_ :: t) => isPreL p l || isSubL p t

/-! ### Stopword heuristics (main.py lines 67-108) -/

/-- The set `ES_STOPS` from the source: each marker is stored with a space on
each side, exactly as in the Python set literal. -/
def ES_STOPS : List String :=
  [" el ", " la ", " de ", " que ", " y ", " para ", " con ", " por ", " los ", " las ",
   " una ", " un ", " en ", " como ", " pero ", " porque ", " aquí ", " eso ", " este ",
   " esta ", " esto ", " así ", " entonces ", " hola ", " gracias ", " si ", " no "]

/-- The set `EN_STOPS` from the source. -/
def EN_STOPS : List String :=
  [" the ", " and ", " you ", " is ", " are ", " this ", " that ", " for ", " with ",
   " to ", " in ", " of ", " on ", " at ", " it ", " we ", " they ", " but "]

/-- Function `stop_hits(text, stops)` (lines 77-79): pad the lowercased text with
one space on each side and count how many of the (distinct) padded
markers occur as substrings. -/
def stop_hits (text : String) (stops : List String) : Nat :=
  let s : List Char := ' ' :: (text.data.map lowerChar) ++ [' ']
  (stops.filter fun w => isSubL w.data s).length

/-- Function `pick_lang_by_score(text_es, text_en)` (lines 90-108): score each
hypothesis as word count + 2 * stop hits, return ("", "unknown") when both
scores are zero, break near-ties (margin 2) in favour of a side with at
least one stop hit and two words (Spanish side tested first), otherwise
take the higher score, downgrading the tag to "unknown" for texts of
fewer than two words. -/
def pick_lang_by_score (text_es text_en : String) : String × String :=
  let n_es := wc text_es
  let n_en := wc text_en
  let h_es := stop_hits text_es ES_STOPS
  let h_en := stop_hits text_en EN_STOPS
  let score_es := n_es + 2 * h_es
  let score_en := n_en + 2 * h_en
  if score_es = 0 ∧ score_en = 0 then ("", "unknown")
  else if ((score_es : Int) - score_en).natAbs ≤ 2 ∧ 1 ≤ h_es ∧ 2 ≤ n_es then (text_es, "es")
  else if ((score_es : Int) - score_en).natAbs ≤ 2 ∧ 1 ≤ h_en ∧ 2 ≤ n_en then (text_en, "en")
  else if score_en < score_es then (text_es, if 2 ≤ n_es then "es" else "unknown")
  else (text_en, if 2 ≤ n_en then "en" else "unknown")

/-! ### The decision tail of `vosk_transcribe_both` (lines 183-210)

The recognizer calls themselves are external; what remains is a pure
function of the two transcripts and of the `FORCE_STT_LANG`
configuration.  The source returns a 4-tuple whose last two components
echo the inputs `text_es, text_en`; the embedding returns the decision
pair `(best, hint)`.

The Python comparison `n_es >= n_en * 1.25` runs over floats; 1.25 is
exactly representable and word counts are far below 2^50, so it is
exactly the rational comparison `4 * n_es ≥ 5 * n_en`, which is how it
is written here.  `max(3, n_en - 2)` runs over Python's signed integers;
since the other argument of `max` is 3, truncated `Nat` subtraction
gives the same value. -/
def vosk_decide (force : String) (text_es text_en : String) : String × String :=
  if force = "es" then (text_es, if text_es = "" then "unknown" else "es")
  else if force = "en" then (text_en, if text_en = "" then "unknown" else "en")
  else
    let bh := pick_lang_by_score text_es text_en
    if bh.1 = "" then
      if text_es ≠ "" then (text_es, "es")
      else if text_en ≠ "" then (text_en, "en")
      else ("", "unknown")
    else
      let n_es := wc text_es
      let n_en := wc text_en
      let es_hits := stop_hits text_es ES_STOPS
      let en_hits := stop_hits text_en EN_STOPS
      if 1 ≤ es_hits ∧ max 3 (n_en - 2) ≤ n_es then (text_es, "es")
      else if 2 ≤ en_hits ∧ max 3 (n_es + 1) ≤ n_en then (text_en, "en")
      else if 5 * n_en ≤ 4 * n_es ∧ 3 ≤ n_es then (text_es, "es")
      else if 5 * n_es ≤ 4 * n_en ∧ 3 ≤ n_en then (text_en, "en")
      else bh

example : pick_lang_by_score "el gato come" "" = ("el gato come", "es") := by decide
example : vosk_decide "auto" "el gato come" "" = ("el gato come", "es") := by decide
example : vosk_decide "en" "el gato come" "" = ("", "unknown") := by decide

/-! ### Robustness helpers (main.py lines 111-123) -/

/-- The Spanish-specific characters checked by `is_spanishish`. -/
def spanishChars : List Char := ['á', 'é', 'í', 'ó', 'ú', 'ñ', '¿', '¡']

/-- Function `is_spanishish(text)` (lines 111-114): true when the text contains a
Spanish diacritic or inverted punctuation mark, or has at least two
Spanish stopword hits. -/
def is_spanishish (text : String) : Bool :=
  spanishChars.any (fun c => text.data.contains c) || 2 ≤ stop_hits text ES_STOPS

/-- The token set `set(a.lower().split())` of `jaccard_similarity`,
as a duplicate-free list. -/
def jaccard_set (a : String) : List String := (pysplit (lowerStr a)).dedup

/-- The count `len(sa & sb)` in `jaccard_similarity`. -/
def jaccard_inter (a b : String) : Nat :=
  ((jaccard_set a).filter fun x => x ∈ jaccard_set b).length

/-- The count `len(sa | sb)` in `jaccard_similarity`. -/
def jaccard_union (a b : String) : Nat :=
  (jaccard_set a ++ (jaccard_set b).filter fun x => ¬ x ∈ jaccard_set a).length

/-- Function `jaccard_similarity(a, b)` (lines 116-123): token-set Jaccard
similarity of the lowercased, whitespace-split word sets, 0 when either
set is empty.  Python's float division is modelled over `ℚ`. -/
def jaccard_similarity (a b : String) : ℚ :=
  if jaccard_set a = [] ∨ jaccard_set b = [] then 0
  else (jaccard_inter a b : ℚ) / ((max 1 (jaccard_union a b) : Nat) : ℚ)

theorem jaccard_inter_eq_zero_of_empty (a b : String)
    (h : jaccard_set a = [] ∨ jaccard_set b = []) : jaccard_inter a b = 0 := by
  rcases h with h | h <;> simp [jaccard_inter, h]

/-- Bridge between the `ℚ`-valued similarity and a `Nat` comparison that
the kernel can evaluate: `sim >= 0.75` iff `3 * max 1 union <= 4 * inter`. -/
theorem jaccard_ge_iff (a b : String) :
    (0.75 : ℚ) ≤ jaccard_similarity a b ↔
      3 * max 1 (jaccard_union a b) ≤ 4 * jaccard_inter a b := by
  unfold jaccard_similarity
  split
  · rename_i h
    rw [jaccard_inter_eq_zero_of_empty a b h]
    constructor
    · intro hq; norm_num at hq
    · intro hn; exact absurd hn (by omega)
  · have hpos : (0 : ℚ) < ((max 1 (jaccard_union a b) : ℕ) : ℚ) := by
      exact_mod_cast (by omega : (0 : ℕ) < max 1 (jaccard_union a b))
    rw [show (0.75 : ℚ) = 3 / 4 by norm_num, div_le_div_iff₀ (by norm_num) hpos]
    norm_cast
    omega

example : jaccard_inter "hola amigo" "Amigo hola" = 2 := by decide
example : jaccard_union "hola amigo" "Amigo hola" = 2 := by decide
example : is_spanishish "senor bueno" = false := by decide
example : is_spanishish "señor" = true := by decide

/-! ### The reconciliation step of `_process_audio_file` (lines 472-477)

After the provisional decision `(src, dst)` and the first translation,
the source does:

    if src == "en":
        sim = jaccard_similarity(text_best, translated)
        if is_spanishish(text_best) or sim >= 0.75:
            src, dst = "es", "en"
            translated = translate_smart(text_best, target=dst, source_lang="es")

The translation call is external here; `tr` stands for
`translate_smart` restricted to its three arguments.  The state is the
triple `(src, dst, translated)`; `text_best` is fixed per request. -/
def reconcile (tr : String → String → Option String → String)
    (text_best : String) (st : String × String × String) : String × String × String :=
  if st.1 = "en" then
    if is_spanishish text_best ∨ jaccard_similarity text_best st.2.2 ≥ (0.75 : ℚ) then
      ("es", "en", tr text_best "en" (some "es"))
    else st
  else st

/-- The guard of the reconciliation step: true exactly when the source's
inner `if` fires on the state `st`. -/
def reconcile_fires (text_best : String) (st : String × String × String) : Bool :=
  st.1 = "en" &&
    (is_spanishish text_best || decide (jaccard_similarity text_best st.2.2 ≥ (0.75 : ℚ)))

/-! ### Tempo normalization (`adjust_speed_with_ffmpeg`, lines 337-361)

    spd = max(0.5, min(2.0, float(speed)))
    if abs(spd - 1.0) < 1e-3: copy input to output
    else: run ffmpeg atempo=spd; on failure, copy input to output

The constants 0.5 and 2.0 are exact floats; the requested factor is
modelled as an exact rational.  The float literal `1e-3` differs from
1/1000 by less than 2^-60; no clamped rational with a short
representation falls between them, and the claims only exercise the
comparison away from that gap, so the threshold is modelled as
1/1000. -/

/-- The clamp `max(0.5, min(2.0, speed))`. -/
def clamp_speed (speed : ℚ) : ℚ := max (0.5 : ℚ) (min (2.0 : ℚ) speed)

/-- What the function does to the audio: byte-copy, or an `atempo`
filter invocation at the clamped factor. -/
inductive TempoAction where
  | copy : TempoAction
  | atempo : ℚ → TempoAction
deriving DecidableEq

/-- The action selected by `adjust_speed_with_ffmpeg` for a requested
speed factor. -/
def adjust_speed_action (speed : ℚ) : TempoAction :=
  let spd := clamp_speed speed
  if |spd - 1| < (1 / 1000 : ℚ) then TempoAction.copy else TempoAction.atempo spd

/-- Function `adjust_speed_with_ffmpeg` on the audio bytes themselves: `ffmpeg`
abstracts the external tool (`none`/empty output = failure, in which
case the source falls back to a byte copy of the input). -/
def adjust_speed (speed : ℚ) (audio : List Nat)
    (ffmpeg : ℚ → List Nat → Option (List Nat)) : List Nat :=
  let spd := clamp_speed speed
  if |spd - 1| < (1 / 1000 : ℚ) then audio
  else
    match ffmpeg spd audio with
    | some out => if out = [] then audio else out
    | none => audio

example : adjust_speed_action 1 = TempoAction.copy := by
  unfold adjust_speed_action clamp_speed
  norm_num

/-! ### Glossary post-processor (main.py lines 262-296)

`apply_local_glossary` runs `re.sub(pattern, repl, out, flags=IGNORECASE)`
for each rule of the direction's list, in order.  Every pattern is
anchored with `\b` on both ends and its interior is a literal word (with
small character-class/optional-suffix variation), or two such words
joined by `\s+`.  Consequently a pattern matches exactly at maximal
word-character runs whose lowercase form lies in a finite set:

* `\bse[ñn]al(es)?\b`              — a word in {señal, senal, señales, senales}
* `\bapalancamiento\b`             — the word apalancamiento
* `\bcuenta[s]?\b`                 — a word in {cuenta, cuentas}
* `\bretirad[ao]s?\b`              — a word in {retirada, retirado, retiradas, retirados}
* `\bdep[oó]sito[s]?\s+m[ií]nimo[s]?\b` — a word in {deposito, depósito,
  depositos, depósitos}, a nonempty all-whitespace separator, then a word
  in {minimo, mínimo, minimos, mínimos}
* and the analogous English patterns of `EN_ES_RULES`.

Texts are therefore embedded as their tokenization into alternating
maximal word runs and separator runs (`Tok`), and `re.sub` of a rule as
the corresponding left-to-right rewrite on the token list.  The
IGNORECASE flag is the `lowerStr` before the set membership test. -/

/-- A token of a tokenized text: a maximal run of word characters, or a
maximal run of non-word characters. -/
inductive Tok where
  | word : String → Tok
  | sep : String → Tok
deriving DecidableEq

/-- Whole-word match of a rule against one word token: the lowercased
word is one of the finitely many strings the rule's pattern accepts. -/
def wordMatches (forms : List String) (w : String) : Bool := forms.contains (lowerStr w)

/-- The effect of a single-word rule on one maximal word. -/
def substWord (forms : List String) (repl : String) (w : String) : String :=
  if wordMatches forms w then repl else w

/-- Python `re.sub` of a single-word rule: every maximal word accepted by the
pattern is replaced by the (single-word) replacement. -/
def substTok (forms : List String) (repl : String) : Tok → Tok
  | Tok.word w => Tok.word (substWord forms repl w)
  | Tok.sep s => Tok.sep s

/-- A single-word rule applied to a whole text. -/
def subWordRule (forms : List String) (repl : String) (x : List Tok) : List Tok :=
  x.map (substTok forms repl)

/-- A nonempty all-whitespace separator (what `\s+` can consume). -/
def isWsSep (s : String) : Bool := s ≠ "" && s.data.all isPySpace

/-- Whether the two-word rule's pattern matches at `word w1, sep s, word w2`. -/
def pairAt (f1 f2 : List String) (w1 s w2 : String) : Bool :=
  wordMatches f1 w1 && isWsSep s && wordMatches f2 w2

/-- Python `re.sub` of the two-word rule (`\bdep[oó]sito[s]?\s+m[ií]nimo[s]?\b`
and its English counterpart): leftmost, non-overlapping replacement of
word-separator-word triples accepted by the pattern; the replacement is
the two words `ra`, `rb` joined by a single space. -/
def subPairRule (f1 f2 : List String) (ra rb : String) : List Tok → List Tok
  | Tok.word w1 :: Tok.sep s :: l2@(Tok.word w2 :: rest2) =>
    if pairAt f1 f2 w1 s w2 then
      Tok.word ra :: Tok.sep " " :: Tok.word rb :: subPairRule f1 f2 ra rb rest2
    else Tok.word w1 :: Tok.sep s :: subPairRule f1 f2 ra rb l2
  | t :: rest => t :: subPairRule f1 f2 ra rb rest
  | [] => []

/-- Lowercase word forms matched by `\bdep[oó]sito[s]?` (with IGNORECASE). -/
def DEP_FORMS : List String := ["deposito", "depósito", "depositos", "depósitos"]

/-- Lowercase word forms matched by `m[ií]nimo[s]?\b`. -/
def MIN_FORMS : List String := ["minimo", "mínimo", "minimos", "mínimos"]

/-- Lowercase word forms matched by `\bse[ñn]al(es)?\b`. -/
def SENAL_FORMS : List String := ["señal", "senal", "señales", "senales"]

/-- Lowercase word forms matched by `\bapalancamiento\b`. -/
def APAL_FORMS : List String := ["apalancamiento"]

/-- Lowercase word forms matched by `\bcuenta[s]?\b`. -/
def CUENTA_FORMS : List String := ["cuenta", "cuentas"]

/-- Lowercase word forms matched by `\bretirad[ao]s?\b`. -/
def RETIRAD_FORMS : List String := ["retirada", "retirado", "retiradas", "retirados"]

/-- Lowercase word forms matched by `\bminimum\s+deposit(s)?\b`, split
into its two words. -/
def MINIMUM_FORMS : List String := ["minimum"]

/-- Second word of `\bminimum\s+deposit(s)?\b`. -/
def DEPOSIT_FORMS : List String := ["deposit", "deposits"]

/-- Lowercase word forms matched by `\bsignal(s)?\b`. -/
def SIGNAL_FORMS : List String := ["signal", "signals"]

/-- Lowercase word forms matched by `\bleverage\b`. -/
def LEVERAGE_FORMS : List String := ["leverage"]

/-- Lowercase word forms matched by `\baccount(s)?\b`. -/
def ACCOUNT_FORMS : List String := ["account", "accounts"]

/-- Lowercase word forms matched by `\bwithdrawal(s)?\b`. -/
def WITHDRAWAL_FORMS : List String := ["withdrawal", "withdrawals"]

/-- The `ES_EN_RULES` list applied in order (lines 262-268, 283-284). -/
def es_en_apply (x : List Tok) : List Tok :=
  subWordRule RETIRAD_FORMS "withdrawal"
    (subWordRule CUENTA_FORMS "account"
      (subWordRule APAL_FORMS "leverage"
        (subWordRule SENAL_FORMS "signal"
          (subPairRule DEP_FORMS MIN_FORMS "minimum" "deposit" x))))

/-- The `EN_ES_RULES` list applied in order (lines 269-275, 283-284). -/
def en_es_apply (x : List Tok) : List Tok :=
  subWordRule WITHDRAWAL_FORMS "retiro"
    (subWordRule ACCOUNT_FORMS "cuenta"
      (subWordRule LEVERAGE_FORMS "apalancamiento"
        (subWordRule SIGNAL_FORMS "señal"
          (subPairRule MINIMUM_FORMS DEPOSIT_FORMS "depósito" "mínimo" x))))

/-- Function `apply_local_glossary(text, direction)` (lines 277-285): identity
when the local glossary is disabled or the text is empty; otherwise the
direction selects `ES_EN_RULES`, `EN_ES_RULES`, or no rules at all. -/
def apply_local_glossary (useGlossary : Bool) (text : List Tok)
    (direction : String × String) : List Tok :=
  if useGlossary = false ∨ text = [] then text
  else if direction = ("es", "en") then es_en_apply text
  else if direction = ("en", "es") then en_es_apply text
  else text

example :
    es_en_apply [Tok.word "Cuentas", Tok.sep ", ", Tok.word "señales"]
      = [Tok.word "account", Tok.sep ", ", Tok.word "signal"] := by
  simp only [es_en_apply, subPairRule, subWordRule]
  decide
example :
    en_es_apply [Tok.word "minimum", Tok.sep "  ", Tok.word "Deposits"]
      = [Tok.word "depósito", Tok.sep " ", Tok.word "mínimo"] := by
  simp only [en_es_apply, subPairRule, subWordRule]
  decide
example :
    es_en_apply [Tok.word "depósito", Tok.sep " ", Tok.word "mínimo"]
      = [Tok.word "minimum", Tok.sep " ", Tok.word "deposit"] := by
  simp only [es_en_apply, subPairRule, subWordRule]
  decide

/-! ### Translation router (`translate_google`, `translate_smart`,
lines 253-296)

The two providers and the language detector are external services; they
appear as function parameters (a provider that errors is one that
returns the empty text, exactly how the source's `try/except` blocks
surface failures).  Texts are tokenized as in the glossary model; the
Python truthiness test `if not t` is the test for the empty token
list. -/

/-- The source hint actually passed to the secondary provider
(`translate_google`, lines 253-259): the hint itself when it is "es" or
"en", and "auto" otherwise (in particular when no hint is given). -/
def google_src (source_lang : Option String) : String :=
  match source_lang with
  | some s => if s = "es" ∨ s = "en" then s else "auto"
  | none => "auto"

/-- Function `translate_google(text, target, source_lang)` around an abstract
`GoogleTranslator` call `gt source target text`. -/
def translate_google (gt : String → String → List Tok → List Tok)
    (text : List Tok) (target : String) (source_lang : Option String) : List Tok :=
  gt (google_src source_lang) target text

/-- The glossary direction computed at the end of `translate_smart`
(lines 291-296): normalize the hint, fall back to language detection,
then to the complement of the target. -/
def smart_direction (detect : List Tok → String) (text : List Tok)
    (target : String) (source_lang : Option String) : String × String :=
  let src0 := match source_lang with | some s => s | none => "unknown"
  let src1 := if src0 = "es" ∨ src0 = "en" then src0 else detect text
  let src2 := if src1 = "es" ∨ src1 = "en" then src1
    else if target.startsWith "en" then "es" else "en"
  (src2, if target.startsWith "en" then "en" else "es")

/-- Function `translate_smart(text, target, source_lang)` (lines 287-296): try
the primary provider `dl`; when it returns empty, call the secondary
through `translate_google`; finally run the glossary post-processor. -/
def translate_smart (dl : List Tok → String → Option String → List Tok)
    (gt : String → String → List Tok → List Tok) (detect : List Tok → String)
    (useGlossary : Bool) (text : List Tok) (target : String)
    (source_lang : Option String) : List Tok :=
  let t := dl text target source_lang
  let t := if t = [] then translate_google gt text target source_lang else t
  apply_local_glossary useGlossary t (smart_direction detect text target source_lang)

/-- The tail of `_process_audio_file` after translation (lines 479-509):
the textual reply is always sent (first component), and speech synthesis
is attempted exactly when the translated text is non-empty (second
component, the `if translated:` guard of step 7). -/
def respond_after_translation (translated : List Tok) : Bool × Bool :=
  (true, decide (translated ≠ []))

/-! ### Whole-word matching, following the spec's wording

The spec describes `stopHits` as the count of marker words found as
whole-word, case-insensitive matches.  The following definitions are
modelled from those words (not from the source) in order to compare the
two readings; a whole-word match is an occurrence delimited by
non-word characters or the ends of the text. -/

/-- A word character in the sense of a Unicode-aware `\b`, restricted to
the alphabets the program uses. -/
def isWordChar (c : Char) : Bool :=
  c.isAlphanum || c = '_' ||
    ['á', 'é', 'í', 'ó', 'ú', 'ñ', 'ü', 'Á', 'É', 'Í', 'Ó', 'Ú', 'Ñ', 'Ü'].contains c

/-- The character before a candidate match does not extend a word. -/
def boundaryOk : Option Char → Bool
  | none => true
  | some c => !isWordChar c

/-- The character after a candidate match does not extend a word. -/
def afterOk : List Char → Bool
  | [] => true
  | c :: _ => !isWordChar c

/-- Search for a whole-word occurrence of `m`, tracking the previous
character for the left boundary. -/
def wwSearch (m : List Char) : Option Char → List Char → Bool
  | prev, [] => boundaryOk prev && m.isEmpty
  | prev, l@(c :: cs) =>
    (boundaryOk prev && isPreL m l && afterOk (l.drop m.length)) || wwSearch m (some c) cs

/-- Modelled from the spec: marker `m` occurs in `text` as a whole-word,
case-insensitive match. -/
def wholeWordOccurs (m : String) (text : String) : Bool :=
  wwSearch (lowerStr m).data none (lowerStr text).data

/-- Modelled from the spec: the count of marker words from the fixed
marker set occurring in the text as whole-word, case-insensitive
matches.  The markers are the source's stopword entries without their
surrounding spaces. -/
def spec_stop_hits (text : String) (markers : List String) : Nat :=
  (markers.filter fun m => wholeWordOccurs m text).length

/-- The spec-level Spanish marker set: `ES_STOPS` without the padding
spaces. -/
def ES_MARKERS : List String :=
  ["el", "la", "de", "que", "y", "para", "con", "por", "los", "las",
   "una", "un", "en", "como", "pero", "porque", "aquí", "eso", "este",
   "esta", "esto", "así", "entonces", "hola", "gracias", "si", "no"]

example : spec_stop_hits "el, gato" ES_MARKERS = 1 := by decide
example : stop_hits "el, gato" ES_STOPS = 0 := by decide

/-! ### Foundational lemmas about the string primitives -/

theorem lowerChar_space {c : Char} (h : isPySpace c = true) :
    isPySpace (lowerChar c) = true := by
  simp only [isPySpace, Bool.or_eq_true, decide_eq_true_eq] at h
  rcases h with ((((rfl | rfl) | rfl) | rfl) | rfl) | rfl <;> decide

theorem isPreL_correct : ∀ p l : List Char, isPreL p l = true ↔ p <+: l := by
  intro p
  induction p with
  | nil => intro l; simp [isPreL]
  | cons a as ih =>
    intro l
    cases l with
    | nil => simp [isPreL]
    | cons b bs =>
      simp only [isPreL, Bool.and_eq_true, decide_eq_true_eq, ih,
        List.cons_prefix_cons]

theorem isSubL_correct (p : List Char) : ∀ l, isSubL p l = true ↔ p <:+: l := by
  intro l
  induction l with
  | nil =>
    simp only [isSubL, List.isEmpty_iff]
    constructor
    · intro h; simp [h]
    · intro h; exact List.eq_nil_of_infix_nil h
  | cons c cs ih =>
    simp only [isSubL, Bool.or_eq_true, ih, isPreL_correct]
    rw [List.infix_cons_iff]

theorem pysplitAux_eq_nil_iff (l : List Char) :
    ∀ acc, pysplitAux l acc = [] ↔ ((∀ c ∈ l, isPySpace c = true) ∧ acc = []) := by
  induction l with
  | nil =>
    intro acc
    simp only [pysplitAux, List.not_mem_nil]
    constructor
    · intro h
      split at h
      · rename_i hacc
        exact ⟨by intro c hc; exact absurd hc (by simp), List.isEmpty_iff.mp hacc⟩
      · exact absurd h (by simp)
    · rintro ⟨-, hacc⟩
      subst hacc
      rfl
  | cons c cs ih =>
    intro acc
    simp only [pysplitAux]
    split
    · rename_i hc
      split
      · rename_i hacc
        rw [ih []]
        constructor
        · rintro ⟨h, -⟩
          refine ⟨?_, List.isEmpty_iff.mp hacc⟩
          intro d hd
          rcases List.mem_cons.mp hd with rfl | hd
          · exact hc
          · exact h d hd
        · rintro ⟨h, -⟩
          exact ⟨fun d hd => h d (List.mem_cons_of_mem _ hd), rfl⟩
      · constructor
        · intro h; exact absurd h (by simp)
        · rintro ⟨-, hacc⟩
          rename_i hne
          exact absurd (by simp [hacc] : List.isEmpty acc = true) hne
    · rename_i hc
      rw [ih (c :: acc)]
      constructor
      · rintro ⟨-, h⟩
        exact absurd h (by simp)
      · rintro ⟨h, -⟩
        exact absurd (h c (List.mem_cons_self c cs)) hc

theorem wc_eq_zero_iff (t : String) :
    wc t = 0 ↔ ∀ c ∈ t.data, isPySpace c = true := by
  unfold wc pysplit pysplitL
  rw [List.length_eq_zero, List.map_eq_nil_iff, pysplitAux_eq_nil_iff]
  simp

/-- If a stopword list consists of entries each containing a non-space
character, a text whose characters are all whitespace has no stop hits. -/
theorem stop_hits_eq_zero_of_all_space (t : String) (S : List String)
    (hS : ∀ w ∈ S, ∃ c ∈ w.data, isPySpace c = false)
    (ht : ∀ c ∈ t.data, isPySpace c = true) : stop_hits t S = 0 := by
  unfold stop_hits
  rw [List.length_eq_zero, List.filter_eq_nil_iff]
  intro w hw
  simp only [Bool.not_eq_true]
  apply Bool.eq_false_iff.mpr
  intro hsub
  have hinf : w.data <:+: ' ' :: (t.data.map lowerChar) ++ [' '] :=
    (isSubL_correct _ _).mp hsub
  obtain ⟨c, hc, hcs⟩ := hS w hw
  have hmem : c ∈ ' ' :: (t.data.map lowerChar) ++ [' '] := hinf.subset hc
  rcases List.mem_cons.mp hmem with rfl | hmem
  · simp [isPySpace] at hcs
  · rcases List.mem_append.mp hmem with hmem | hmem
    · obtain ⟨d, hd, rfl⟩ := List.mem_map.mp hmem
      rw [lowerChar_space (ht d hd)] at hcs
      exact absurd hcs (by simp)
    · rcases List.mem_singleton.mp hmem with rfl
      simp [isPySpace] at hcs

theorem stop_hits_es_le_wc (t : String) (h : wc t = 0) :
    stop_hits t ES_STOPS = 0 :=
  stop_hits_eq_zero_of_all_space t ES_STOPS (by decide) ((wc_eq_zero_iff t).mp h)

theorem stop_hits_en_le_wc (t : String) (h : wc t = 0) :
    stop_hits t EN_STOPS = 0 :=
  stop_hits_eq_zero_of_all_space t EN_STOPS (by decide) ((wc_eq_zero_iff t).mp h)

theorem wc_pos_ne_empty {t : String} (h : 1 ≤ wc t) : t ≠ "" := by
  intro he
  subst he
  simp [wc, pysplit, pysplitL, pysplitAux] at h

theorem stop_hits_es_pos_ne_empty {t : String} (h : 1 ≤ stop_hits t ES_STOPS) :
    t ≠ "" := by
  intro he
  subst he
  have : stop_hits "" ES_STOPS = 0 := by decide
  omega

theorem stop_hits_en_pos_ne_empty {t : String} (h : 1 ≤ stop_hits t EN_STOPS) :
    t ≠ "" := by
  intro he
  subst he
  have : stop_hits "" EN_STOPS = 0 := by decide
  omega

/-- Evaluating `pick_lang_by_score` with an empty English hypothesis. -/
theorem pick_empty_right (t : String) :
    pick_lang_by_score t "" =
      if wc t + 2 * stop_hits t ES_STOPS = 0 then ("", "unknown")
      else (t, if 2 ≤ wc t then "es" else "unknown") := by
  have hwc : wc "" = 0 := rfl
  have hsh : stop_hits "" EN_STOPS = 0 := by decide
  simp only [pick_lang_by_score, hwc, hsh]
  split_ifs <;> first | rfl | omega

/-- Evaluating `pick_lang_by_score` with an empty Spanish hypothesis. -/
theorem pick_empty_left (t : String) :
    pick_lang_by_score "" t =
      if wc t + 2 * stop_hits t EN_STOPS = 0 then ("", "unknown")
      else (t, if 2 ≤ wc t then "en" else "unknown") := by
  have hwc : wc "" = 0 := rfl
  have hsh : stop_hits "" ES_STOPS = 0 := by decide
  simp only [pick_lang_by_score, hwc, hsh]
  split_ifs <;> first | rfl | omega | (exfalso; simp_all)

end BotMain

namespace BotMain

/-! ## Claim theorems -/

/-- Claim C1, counterexample: with hypothesis A = "el gato come" and
hypothesis B = "", the forced-B mode (`FORCE_STT_LANG = "en"`) does NOT
select hypothesis A — it returns the empty B transcript with tag
"unknown" (the NoSpeechDetected outcome), contradicting "decision = A
regardless of mode". -/
theorem c1_forced_b_counterexample :
    vosk_decide "en" "el gato come" "" ≠ ("el gato come", "es") := by decide

/-- Claim C1, amended: with hypothesis A = "el gato come" (wordCount 3,
stopHits ≥ 1) and hypothesis B = "", the decision selects hypothesis A
with tag "es" in forced-A mode and in auto mode; in forced-B mode the
empty forced transcript yields ("", "unknown") instead. -/
theorem c1_decision_per_mode :
    vosk_decide "es" "el gato come" "" = ("el gato come", "es")
    ∧ vosk_decide "auto" "el gato come" "" = ("el gato come", "es")
    ∧ vosk_decide "en" "el gato come" "" = ("", "unknown") := by decide

/-- Claim C9, counterexample: the claim reads `stopHits` as whole-word
matching.  On the text "el, gato" the marker "el" occurs as a whole word
(delimited by punctuation), but the code's `stop_hits` finds nothing
because it requires the marker to be surrounded by literal spaces, so the
code's score differs from the claimed formula. -/
theorem c9_whole_word_counterexample :
    wc "el, gato" + 2 * stop_hits "el, gato" ES_STOPS ≠
      wc "el, gato" + 2 * spec_stop_hits "el, gato" ES_MARKERS := by decide

/-- Claim C9, amended: the score is `wordCount + 2 * stopHits`, where
`wordCount` is the number of whitespace-separated tokens and `stopHits`
is the number of marker entries (each stored with one space on either
side) occurring as substrings of the lowercased text padded with one
space on each side — i.e. space-delimited rather than whole-word
occurrences. -/
theorem c9_score_formula (t : String) (S : List String) :
    wc t + 2 * stop_hits t S =
      (pysplit t).length +
        2 * S.countP (fun w => decide (w.data <:+: ' ' :: (t.data.map lowerChar) ++ [' '])) := by
  have h2 : stop_hits t S =
      S.countP (fun w => decide (w.data <:+: ' ' :: (t.data.map lowerChar) ++ [' '])) := by
    unfold stop_hits
    rw [← List.countP_eq_length_filter]
    apply List.countP_congr
    intro w hw
    constructor
    · intro h
      simpa using (isSubL_correct w.data _).mp h
    · intro h
      exact (isSubL_correct w.data _).mpr (by simpa using h)
  rw [h2]
  rfl

/-- Claim C10, counterexample: with A = "el que no" (score 9, stopHits 3,
wordCount 3) and B = "the cat and dog run fast" (score 10, stopHits 2,
wordCount 6) the scores are within the tie margin 2 and both sides have
stopHits ≥ 1 and wordCount ≥ 2, yet the full auto-mode decision selects
the English hypothesis: the English reinforcement override
(`en_hits >= 2 and n_en >= max(3, n_es + 1)`) replaces the tie-break's
provisional Spanish pick. -/
theorem c10_auto_override_counterexample :
    (((wc "el que no" + 2 * stop_hits "el que no" ES_STOPS : Int)
        - (wc "the cat and dog run fast"
            + 2 * stop_hits "the cat and dog run fast" EN_STOPS)).natAbs ≤ 2
      ∧ 1 ≤ stop_hits "el que no" ES_STOPS ∧ 2 ≤ wc "el que no"
      ∧ 1 ≤ stop_hits "the cat and dog run fast" EN_STOPS
      ∧ 2 ≤ wc "the cat and dog run fast")
    ∧ vosk_decide "auto" "el que no" "the cat and dog run fast"
        = ("the cat and dog run fast", "en") := by decide

/-- Claim C10, amended: within the score-based pick
(`pick_lang_by_score`), whenever the two scores differ by at most the
tie margin 2 and the Spanish side has at least one stop hit and at least
two words, the Spanish hypothesis is selected with tag "es" (the Spanish
qualification is tested before the English one, so this holds even when
the English side also qualifies); the later reinforcement overrides of
auto mode may still replace this provisional pick. -/
theorem c10_tie_break_prefers_spanish (text_es text_en : String)
    (htie : ((wc text_es + 2 * stop_hits text_es ES_STOPS : Int)
        - (wc text_en + 2 * stop_hits text_en EN_STOPS)).natAbs ≤ 2)
    (hh : 1 ≤ stop_hits text_es ES_STOPS) (hn : 2 ≤ wc text_es) :
    pick_lang_by_score text_es text_en = (text_es, "es") := by
  simp only [pick_lang_by_score]
  split_ifs <;> first | rfl | omega

/-- Witness for the amended claim C10 at the counterexample pair: the
score-level pick does select the Spanish side there. -/
theorem c10_tie_break_prefers_spanish_witness :
    pick_lang_by_score "el que no" "the cat and dog run fast" = ("el que no", "es") :=
  c10_tie_break_prefers_spanish "el que no" "the cat and dog run fast"
    (by decide) (by decide) (by decide)

end BotMain

namespace BotMain

/-- Claim C4, counterexample: with hypothesis pair ("a", "") exactly one
hypothesis is non-empty, yet the auto-mode decision returns the
non-empty text with tag "unknown" (the higher-score branch downgrades a
winner of fewer than two words), not with its own language tag. -/
theorem c4_single_word_counterexample :
    vosk_decide "auto" "a" "" = ("a", "unknown") := by decide

/-- Claim C4, amended: when exactly one hypothesis is non-empty, the
auto-mode decision always selects the non-empty text; its tag is that
hypothesis's own language, except when its word count is exactly 1, in
which case the tag is downgraded to "unknown". -/
theorem c4_single_nonempty (t : String) (ht : t ≠ "") :
    vosk_decide "auto" t "" = (t, if wc t = 1 then "unknown" else "es")
    ∧ vosk_decide "auto" "" t = (t, if wc t = 1 then "unknown" else "en") := by
  have hes : stop_hits "" ES_STOPS = 0 := by decide
  have hen : stop_hits "" EN_STOPS = 0 := by decide
  have hwc : wc "" = 0 := rfl
  constructor
  · unfold vosk_decide
    rw [if_neg (by decide), if_neg (by decide), pick_empty_right]
    rcases Nat.eq_zero_or_pos (wc t) with hn0 | hn1
    · have hsz : stop_hits t ES_STOPS = 0 := stop_hits_es_le_wc t hn0
      simp [hn0, hsz, ht]
    · have hne := wc_pos_ne_empty hn1
      have h0 : ¬ (wc t + 2 * stop_hits t ES_STOPS = 0) := by omega
      simp only [ne_eq, hwc, hes, hen, if_neg h0]
      split_ifs <;> first | rfl | omega | (exfalso; simp_all)
  · unfold vosk_decide
    rw [if_neg (by decide), if_neg (by decide), pick_empty_left]
    rcases Nat.eq_zero_or_pos (wc t) with hn0 | hn1
    · have hsz : stop_hits t EN_STOPS = 0 := stop_hits_en_le_wc t hn0
      simp [hn0, hsz, ht]
    · have hne := wc_pos_ne_empty hn1
      have h0 : ¬ (wc t + 2 * stop_hits t EN_STOPS = 0) := by omega
      simp only [ne_eq, hwc, hes, hen, if_neg h0]
      split_ifs <;> first | rfl | omega | (exfalso; simp_all)

/-- Witness for the amended claim C4 at the two-word text "hola amigo":
each direction selects the non-empty hypothesis with its own tag. -/
theorem c4_single_nonempty_witness :
    ("hola amigo" : String) ≠ ""
    ∧ vosk_decide "auto" "hola amigo" ""
        = ("hola amigo", if wc "hola amigo" = 1 then "unknown" else "es")
    ∧ vosk_decide "auto" "" "hola amigo"
        = ("hola amigo", if wc "hola amigo" = 1 then "unknown" else "en") :=
  ⟨by decide, (c4_single_nonempty "hola amigo" (by decide)).1,
    (c4_single_nonempty "hola amigo" (by decide)).2⟩

end BotMain

namespace BotMain

/-- A text with a positive Spanish score is non-empty. -/
theorem score_es_pos_ne_empty {t : String}
    (h : 1 ≤ wc t + 2 * stop_hits t ES_STOPS) : t ≠ "" := by
  have h6 : 1 ≤ wc t ∨ 1 ≤ stop_hits t ES_STOPS := by omega
  rcases h6 with h5 | h5
  · exact wc_pos_ne_empty h5
  · exact stop_hits_es_pos_ne_empty h5

/-- A text with a positive English score is non-empty. -/
theorem score_en_pos_ne_empty {t : String}
    (h : 1 ≤ wc t + 2 * stop_hits t EN_STOPS) : t ≠ "" := by
  have h6 : 1 ≤ wc t ∨ 1 ≤ stop_hits t EN_STOPS := by omega
  rcases h6 with h5 | h5
  · exact wc_pos_ne_empty h5
  · exact stop_hits_en_pos_ne_empty h5

/-- When either hypothesis has at least three words, the score-based
pick never returns the empty text. -/
theorem pick_fst_ne_empty (text_es text_en : String)
    (h : 3 ≤ wc text_es ∨ 3 ≤ wc text_en) :
    (pick_lang_by_score text_es text_en).1 ≠ "" := by
  simp only [pick_lang_by_score]
  split_ifs with h1 h2 h3 h4 <;> dsimp only <;>
    first
    | (exfalso; rcases h with h | h <;> omega)
    | (apply score_es_pos_ne_empty; omega)
    | (apply score_en_pos_ne_empty; omega)

/-- Claim C5, counterexample: with A = "la casa es grande" (4 words, 1
stop hit) and B = "we want to go home" (5 words, 2 stop hits), the
English side satisfies the claimed ratio override (wordCount 5 ≥ 3 and
5 ≥ 1.25 × 4), so the claim demands that B be selected outright; the
code instead selects A, because the Spanish stop-hit reinforcement
(`es_hits >= 1 and n_es >= max(3, n_en - 2)`) is tested first. -/
theorem c5_priority_counterexample :
    (3 ≤ wc "we want to go home"
      ∧ 5 * wc "la casa es grande" ≤ 4 * wc "we want to go home")
    ∧ vosk_decide "auto" "la casa es grande" "we want to go home"
        = ("la casa es grande", "es") := by decide

/-- Claim C5, amended: the reinforcement overrides run after the
score-based pick and in source order: (1) Spanish stop-hit reinforcement
(`es_hits >= 1` and `n_es >= max(3, n_en - 2)`), (2) English stop-hit
reinforcement (`en_hits >= 2` and `n_en >= max(3, n_es + 1)`), (3)
Spanish ratio rule, (4) English ratio rule; no diacritic check occurs in
the decision engine.  Consequently the Spanish ratio condition
(wordCount ≥ 3 and ≥ 1.25 × the other side) always yields the Spanish
hypothesis outright, while the English ratio condition yields the
English hypothesis only when the Spanish stop-hit reinforcement does not
fire. -/
theorem c5_reinforcement_rules (text_es text_en : String) :
    (3 ≤ wc text_es → 5 * wc text_en ≤ 4 * wc text_es →
      vosk_decide "auto" text_es text_en = (text_es, "es"))
    ∧ (3 ≤ wc text_en → 5 * wc text_es ≤ 4 * wc text_en →
        ¬ (1 ≤ stop_hits text_es ES_STOPS ∧ max 3 (wc text_en - 2) ≤ wc text_es) →
        vosk_decide "auto" text_es text_en = (text_en, "en")) := by
  constructor
  · intro h3 hr
    unfold vosk_decide
    rw [if_neg (by decide), if_neg (by decide),
      if_neg (pick_fst_ne_empty text_es text_en (Or.inl h3))]
    dsimp only
    split_ifs <;> first | rfl | omega
  · intro h3 hr hblock
    unfold vosk_decide
    rw [if_neg (by decide), if_neg (by decide),
      if_neg (pick_fst_ne_empty text_es text_en (Or.inr h3))]
    dsimp only
    split_ifs <;> first | rfl | omega

/-- Witness for the amended claim C5: both ratio rules at concrete
hypothesis pairs. -/
theorem c5_reinforcement_rules_witness :
    vosk_decide "auto" "uno dos tres" "" = ("uno dos tres", "es")
    ∧ vosk_decide "auto" "" "one two three" = ("one two three", "en") :=
  ⟨(c5_reinforcement_rules "uno dos tres" "").1 (by decide) (by decide),
   (c5_reinforcement_rules "" "one two three").2 (by decide) (by decide) (by decide)⟩

end BotMain

namespace BotMain

/-- Claim C2, counterexample: the claim says a provisional decision for
language A (Spanish, "es") with translation similarity ≥ 0.75 must be
flipped to B.  In the code the reconciliation guard only looks at
`src == "en"`: with provisional source "es" and a translation identical
to the source (similarity 1 ≥ 0.75), nothing is flipped and no second
translation happens. -/
theorem c2_no_flip_from_spanish_counterexample :
    (0.75 : ℚ) ≤ jaccard_similarity "hola amigo" "hola amigo"
    ∧ reconcile (fun t _ _ => t) "hola amigo" ("es", "en", "hola amigo")
        = ("es", "en", "hola amigo") := by
  constructor
  · rw [jaccard_ge_iff]; decide
  · rfl

/-- Claim C2, amended: the reconciler corrects in the direction B→A.
For every request whose provisional decision is `chosenLanguage == "en"`
(language B), after the first translation: if the token-set Jaccard
similarity between source and translation is ≥ 0.75, or the source text
is Spanish-ish (contains a Spanish diacritic/inverted punctuation mark,
or has ≥ 2 Spanish stopword hits), the decision is flipped to "es", the
target recomputed to "en", and the translation re-run once with source
hint "es"; under the negation of both conditions, and likewise whenever
the provisional decision is not "en", the state is unchanged. -/
theorem c2_reconciler_flips_to_spanish
    (tr : String → String → Option String → String)
    (text_best : String) (st : String × String × String) :
    (st.1 = "en" →
      (is_spanishish text_best = true
        ∨ jaccard_similarity text_best st.2.2 ≥ (0.75 : ℚ)) →
      reconcile tr text_best st = ("es", "en", tr text_best "en" (some "es")))
    ∧ (st.1 = "en" →
        ¬ (is_spanishish text_best = true
            ∨ jaccard_similarity text_best st.2.2 ≥ (0.75 : ℚ)) →
        reconcile tr text_best st = st)
    ∧ (st.1 ≠ "en" → reconcile tr text_best st = st) := by
  refine ⟨?_, ?_, ?_⟩
  · intro h1 h2
    unfold reconcile
    rw [if_pos h1, if_pos h2]
  · intro h1 h2
    unfold reconcile
    rw [if_pos h1, if_neg h2]
  · intro h1
    unfold reconcile
    rw [if_neg h1]

/-- Witness for the amended claim C2: a Spanish-ish English-tagged state
flips once; a non-suspicious state and a Spanish-tagged state are left
unchanged. -/
theorem c2_reconciler_flips_to_spanish_witness :
    reconcile (fun t _ _ => t) "hola señor" ("en", "es", "x")
      = ("es", "en", "hola señor")
    ∧ reconcile (fun t _ _ => t) "good morning" ("en", "es", "zzz")
      = ("en", "es", "zzz")
    ∧ reconcile (fun t _ _ => t) "hola" ("es", "en", "x") = ("es", "en", "x") := by
  refine ⟨?_, ?_, ?_⟩
  · exact (c2_reconciler_flips_to_spanish (fun t _ _ => t) "hola señor"
      ("en", "es", "x")).1 rfl (Or.inl (by decide))
  · refine (c2_reconciler_flips_to_spanish (fun t _ _ => t) "good morning"
      ("en", "es", "zzz")).2.1 rfl ?_
    rintro (h | h)
    · exact absurd h (by decide)
    · rw [ge_iff_le, jaccard_ge_iff] at h
      revert h
      decide
  · exact (c2_reconciler_flips_to_spanish (fun t _ _ => t) "hola"
      ("es", "en", "x")).2.2 (by decide)

/-- Claim C3: the reconciliation correction fires at most once.  After
one application of the reconciliation step, its guard is false on the
resulting state (a fired correction leaves `src = "es"`, which the guard
rejects), so a second application never flips or re-translates: the step
is idempotent for every translator, source text, and state — in
particular even when the corrected translation again looks suspicious
(e.g. similarity 1.0). -/
theorem c3_reconciliation_at_most_once
    (tr : String → String → Option String → String)
    (text_best : String) (st : String × String × String) :
    reconcile_fires text_best (reconcile tr text_best st) = false
    ∧ reconcile tr text_best (reconcile tr text_best st)
        = reconcile tr text_best st := by
  by_cases h1 : st.1 = "en"
  · by_cases h2 : (is_spanishish text_best = true
        ∨ jaccard_similarity text_best st.2.2 ≥ (0.75 : ℚ))
    · have hr : reconcile tr text_best st = ("es", "en", tr text_best "en" (some "es")) := by
        unfold reconcile
        rw [if_pos h1, if_pos h2]
      rw [hr]
      constructor
      · simp [reconcile_fires]
      · unfold reconcile
        simp
    · have hr : reconcile tr text_best st = st := by
        unfold reconcile
        rw [if_pos h1, if_neg h2]
      rw [hr]
      constructor
      · push_neg at h2
        simp [reconcile_fires, h1, h2.1, h2.2]
      · unfold reconcile
        rw [if_pos h1, if_neg h2]
  · have hr : reconcile tr text_best st = st := by
      unfold reconcile
      rw [if_neg h1]
    rw [hr]
    constructor
    · simp [reconcile_fires, h1]
    · unfold reconcile
      rw [if_neg h1]

end BotMain

namespace BotMain

/-- Claim C7: the requested tempo factor is always clamped into
[0.5, 2.0]; a request of 5.0 is applied as the atempo factor 2.0; a
request of 0.1 is applied as 0.5; and for a factor within 0.001 of 1.0
the output is a byte-identical copy of the input audio. -/
theorem c7_tempo_clamp :
    (∀ q : ℚ, (0.5 : ℚ) ≤ clamp_speed q ∧ clamp_speed q ≤ 2)
    ∧ adjust_speed_action 5 = TempoAction.atempo 2
    ∧ adjust_speed_action (1 / 10) = TempoAction.atempo (1 / 2)
    ∧ ∀ (q : ℚ) (audio : List Nat) (ff : ℚ → List Nat → Option (List Nat)),
        |q - 1| < (1 / 1000 : ℚ) → adjust_speed q audio ff = audio := by
  refine ⟨?_, ?_, ?_, ?_⟩
  · intro q
    constructor
    · exact le_max_left _ _
    · exact le_trans (max_le (by norm_num) (min_le_left _ _)) (by norm_num)
  · have h5 : clamp_speed 5 = 2 := by
      unfold clamp_speed
      rw [min_eq_left (by norm_num), max_eq_right (by norm_num)]
      norm_num
    unfold adjust_speed_action
    rw [h5, if_neg (by rw [show (2 : ℚ) - 1 = 1 by norm_num, abs_one]; norm_num)]
  · have h10 : clamp_speed (1 / 10) = 1 / 2 := by
      unfold clamp_speed
      rw [min_eq_right (by norm_num), max_eq_left (by norm_num)]
      norm_num
    unfold adjust_speed_action
    rw [h10, if_neg (by
      rw [show (1 / 2 : ℚ) - 1 = -(1 / 2) by norm_num, abs_neg,
        abs_of_pos (by norm_num : (0 : ℚ) < 1 / 2)]
      norm_num)]
  · intro q audio ff h
    have hlt := abs_lt.mp h
    have hcl : clamp_speed q = q := by
      unfold clamp_speed
      rw [min_eq_right (by linarith), max_eq_right (by linarith)]
    unfold adjust_speed
    rw [hcl, if_pos h]

/-- Witness for claim C7: the clamp bounds at 7, and the near-1 copy at
exactly 1 with a failing external tool. -/
theorem c7_tempo_clamp_witness :
    ((0.5 : ℚ) ≤ clamp_speed 7 ∧ clamp_speed 7 ≤ 2)
    ∧ |(1 : ℚ) - 1| < (1 / 1000 : ℚ)
    ∧ adjust_speed 1 [3, 4] (fun _ _ => none) = [3, 4] :=
  ⟨c7_tempo_clamp.1 7, by norm_num,
    c7_tempo_clamp.2.2.2 1 [3, 4] (fun _ _ => none) (by norm_num)⟩

/-- Claim C8: the primary provider is consulted first (when it returns a
non-empty text the result is its output with the glossary applied, and
the secondary provider is irrelevant); when the primary returns empty or
errors, the secondary is called with the same text and target and with
source "auto" when no usable hint is given; when the primary fails and
the secondary succeeds, the result is the secondary's output with the
glossary applied; when both fail, the router returns the empty text, the
pipeline still emits the textual response, and speech synthesis is
skipped. -/
theorem c8_router_fallback
    (dl : List Tok → String → Option String → List Tok)
    (gt : String → String → List Tok → List Tok) (detect : List Tok → String)
    (text : List Tok) (target : String) (hint : Option String) :
    (dl text target hint ≠ [] →
      ∀ gt2 : String → String → List Tok → List Tok,
        translate_smart dl gt2 detect true text target hint
          = apply_local_glossary true (dl text target hint)
              (smart_direction detect text target hint))
    ∧ (dl text target hint = [] →
        translate_smart dl gt detect true text target hint
          = apply_local_glossary true (gt (google_src hint) target text)
              (smart_direction detect text target hint))
    ∧ google_src none = "auto"
    ∧ (dl text target hint = [] → gt (google_src hint) target text = [] →
        translate_smart dl gt detect true text target hint = []
        ∧ respond_after_translation
            (translate_smart dl gt detect true text target hint) = (true, false)) := by
  refine ⟨?_, ?_, rfl, ?_⟩
  · intro h gt2
    simp only [translate_smart, translate_google, if_neg h]
  · intro h
    simp only [translate_smart, translate_google, h, if_pos]
  · intro h1 h2
    have ht : translate_smart dl gt detect true text target hint = [] := by
      simp only [translate_smart, translate_google, h1, if_pos, h2,
        apply_local_glossary]
      simp
    refine ⟨ht, ?_⟩
    rw [ht]
    rfl

/-- Witness for claim C8: a succeeding primary, a failing primary with a
succeeding secondary, and a double failure, each at concrete inputs. -/
theorem c8_router_fallback_witness :
    translate_smart (fun _ _ _ => [Tok.word "hola"]) (fun _ _ _ => [])
        (fun _ => "es") true [Tok.word "x"] "en" (some "es")
      = apply_local_glossary true [Tok.word "hola"]
          (smart_direction (fun _ => "es") [Tok.word "x"] "en" (some "es"))
    ∧ translate_smart (fun _ _ _ => []) (fun _ _ _ => [Tok.word "cat"])
        (fun _ => "es") true [Tok.word "x"] "en" (some "es")
      = apply_local_glossary true
          ((fun (_ : String) (_ : String) (_ : List Tok) => [Tok.word "cat"])
            (google_src (some "es")) "en" [Tok.word "x"])
          (smart_direction (fun _ => "es") [Tok.word "x"] "en" (some "es"))
    ∧ translate_smart (fun _ _ _ => []) (fun _ _ _ => [])
        (fun _ => "es") true [Tok.word "x"] "en" none = [] :=
  ⟨(c8_router_fallback (fun _ _ _ => [Tok.word "hola"]) (fun _ _ _ => [])
      (fun _ => "es") [Tok.word "x"] "en" (some "es")).1 (by simp) (fun _ _ _ => []),
   (c8_router_fallback (fun _ _ _ => []) (fun _ _ _ => [Tok.word "cat"])
      (fun _ => "es") [Tok.word "x"] "en" (some "es")).2.1 rfl,
   ((c8_router_fallback (fun _ _ _ => []) (fun _ _ _ => [])
      (fun _ => "es") [Tok.word "x"] "en" none).2.2.2 rfl rfl).1⟩

end BotMain

namespace BotMain

/-! ### Idempotence machinery for the glossary

`cleanW forms x` says no maximal word of `x` still matches a single-word
rule with form set `forms`; `cleanP f1 f2 x` says no
word-separator-word triple of `x` still matches the two-word rule.
Each substitution establishes its own cleanness (its replacement words
match no pattern) and preserves the cleanness of the other rules, so a
second pass over an already-processed text is the identity. -/

/-- No word token of the text matches `forms`. -/
def cleanW (forms : List String) : List Tok → Bool
  | [] => true
  | Tok.word w :: rest => !wordMatches forms w && cleanW forms rest
  | Tok.sep _ :: rest => cleanW forms rest

/-- The two-word rule does not match at the head of `word w :: rest`. -/
def pairGuard (f1 f2 : List String) (w : String) : List Tok → Bool
  | Tok.sep s :: Tok.word w2 :: _ => !pairAt f1 f2 w s w2
  | _ => true

/-- The two-word rule matches nowhere in the text. -/
def cleanP (f1 f2 : List String) : List Tok → Bool
  | [] => true
  | Tok.word w :: rest => pairGuard f1 f2 w rest && cleanP f1 f2 rest
  | Tok.sep _ :: rest => cleanP f1 f2 rest

theorem cleanP_cons_sep (f1 f2 : List String) (s : String) (ys : List Tok) :
    cleanP f1 f2 (Tok.sep s :: ys) = cleanP f1 f2 ys := rfl

theorem cleanP_cons_word_notf1 {f1 : List String} (f2 : List String) {w : String}
    (h : wordMatches f1 w = false) (ys : List Tok) :
    cleanP f1 f2 (Tok.word w :: ys) = cleanP f1 f2 ys := by
  have hg : pairGuard f1 f2 w ys = true := by
    match ys with
    | [] => rfl
    | Tok.word _ :: _ => rfl
    | Tok.sep _ :: [] => rfl
    | Tok.sep _ :: Tok.sep _ :: _ => rfl
    | Tok.sep s :: Tok.word w2 :: _ => simp [pairGuard, pairAt, h]
  simp [cleanP, hg]

/-- A single-word rule is the identity on a `cleanW`-text. -/
theorem subWordRule_id (forms : List String) (repl : String) :
    ∀ x, cleanW forms x = true → subWordRule forms repl x = x := by
  intro x hx
  induction x with
  | nil => rfl
  | cons t rest ih =>
    cases t with
    | word w =>
      simp only [cleanW, Bool.and_eq_true, Bool.not_eq_eq_eq_not, Bool.not_true] at hx
      simp only [subWordRule, List.map_cons, substTok, substWord, hx.1, if_neg]
      rw [show List.map (substTok forms repl) rest = rest from ih hx.2]
      simp
    | sep s =>
      simp only [cleanW] at hx
      simp only [subWordRule, List.map_cons, substTok]
      rw [show List.map (substTok forms repl) rest = rest from ih hx]

/-- A single-word rule leaves no match of itself, provided its
replacement does not match its own pattern. -/
theorem cleanW_subWordRule_self {forms : List String} {repl : String}
    (hr : wordMatches forms repl = false) :
    ∀ x, cleanW forms (subWordRule forms repl x) = true := by
  intro x
  induction x with
  | nil => rfl
  | cons t rest ih =>
    cases t with
    | word w =>
      simp only [subWordRule, List.map_cons, substTok]
      simp only [cleanW, Bool.and_eq_true, Bool.not_eq_eq_eq_not, Bool.not_true]
      refine ⟨?_, ih⟩
      unfold substWord
      split
      · exact hr
      · rename_i hm
        exact Bool.eq_false_iff.mpr hm
    | sep s =>
      simpa only [subWordRule, List.map_cons, substTok, cleanW] using ih

/-- A single-word rule preserves `cleanW` for any other form set its
replacement does not match. -/
theorem cleanW_subWordRule_other {F : List String} (forms : List String)
    {repl : String} (hr : wordMatches F repl = false) :
    ∀ x, cleanW F x = true → cleanW F (subWordRule forms repl x) = true := by
  intro x
  induction x with
  | nil => intro h; exact h
  | cons t rest ih =>
    intro hx
    cases t with
    | word w =>
      simp only [cleanW, Bool.and_eq_true, Bool.not_eq_eq_eq_not, Bool.not_true] at hx
      simp only [subWordRule, List.map_cons, substTok]
      simp only [cleanW, Bool.and_eq_true, Bool.not_eq_eq_eq_not, Bool.not_true]
      refine ⟨?_, ih hx.2⟩
      unfold substWord
      split
      · exact hr
      · exact hx.1
    | sep s =>
      simp only [cleanW] at hx
      simpa only [subWordRule, List.map_cons, substTok, cleanW] using ih hx

/-- A single-word rule preserves `cleanP` when its replacement matches
neither half of the two-word pattern. -/
theorem cleanP_subWordRule (f1 f2 forms : List String) {repl : String}
    (h1 : wordMatches f1 repl = false) (h2 : wordMatches f2 repl = false) :
    ∀ x, cleanP f1 f2 x = true → cleanP f1 f2 (subWordRule forms repl x) = true := by
  intro x
  induction x with
  | nil => intro h; exact h
  | cons t rest ih =>
    intro hx
    cases t with
    | sep s =>
      simp only [cleanP] at hx
      simpa only [subWordRule, List.map_cons, substTok, cleanP] using ih hx
    | word w =>
      simp only [cleanP, Bool.and_eq_true] at hx
      simp only [subWordRule, List.map_cons, substTok]
      simp only [cleanP, Bool.and_eq_true]
      refine ⟨?_, ih hx.2⟩
      match rest with
      | [] => rfl
      | Tok.word _ :: _ => rfl
      | Tok.sep _ :: [] => rfl
      | Tok.sep _ :: Tok.sep _ :: _ => rfl
      | Tok.sep s2 :: Tok.word w2 :: rest3 =>
        have hg : pairAt f1 f2 w s2 w2 = false := by
          have := hx.1
          simp only [pairGuard] at this
          exact Bool.not_eq_eq_eq_not.mp this
        simp only [List.map_cons, substTok, pairGuard]
        unfold substWord
        split
        · simp [pairAt, h1]
        · split
          · simp [pairAt, h2]
          · simp [pairGuard, hg]

end BotMain


namespace BotMain

theorem subPairRule_cons_sep (f1 f2 : List String) (ra rb s : String) (rest : List Tok) :
    subPairRule f1 f2 ra rb (Tok.sep s :: rest)
      = Tok.sep s :: subPairRule f1 f2 ra rb rest := by
  simp [subPairRule]

/-- The output of the two-word rule on a word-headed text starts either
with the untouched word or with the replacement's first word. -/
theorem subPairRule_head_word (f1 f2 : List String) (ra rb w : String)
    (rest : List Tok) :
    (∃ ys, subPairRule f1 f2 ra rb (Tok.word w :: rest)
        = Tok.word ra :: Tok.sep " " :: Tok.word rb :: ys)
    ∨ (∃ ys, subPairRule f1 f2 ra rb (Tok.word w :: rest) = Tok.word w :: ys) := by
  match rest with
  | [] =>
    exact Or.inr ⟨[], by simp [subPairRule]⟩
  | Tok.word w2 :: rest2 =>
    exact Or.inr ⟨subPairRule f1 f2 ra rb (Tok.word w2 :: rest2), by simp [subPairRule]⟩
  | Tok.sep s :: [] =>
    exact Or.inr ⟨[Tok.sep s], by simp [subPairRule]⟩
  | Tok.sep s :: Tok.sep s2 :: rest2 =>
    exact Or.inr ⟨Tok.sep s :: Tok.sep s2 :: subPairRule f1 f2 ra rb rest2,
      by simp [subPairRule]⟩
  | Tok.sep s :: Tok.word w2 :: rest2 =>
    by_cases hp : pairAt f1 f2 w s w2 = true
    · exact Or.inl ⟨subPairRule f1 f2 ra rb rest2, by simp [subPairRule, hp]⟩
    · exact Or.inr ⟨Tok.sep s :: subPairRule f1 f2 ra rb (Tok.word w2 :: rest2),
        by simp [subPairRule, hp]⟩

/-- The two-word rule is the identity on a `cleanP`-text. -/
theorem subPairRule_id (f1 f2 : List String) (ra rb : String) :
    ∀ x, cleanP f1 f2 x = true → subPairRule f1 f2 ra rb x = x := by
  intro x
  induction x using subPairRule.induct f1 f2 ra rb with
  | case1 w1 s w2 rest2 hp ih =>
    intro hx
    exfalso
    simp only [cleanP, pairGuard, Bool.and_eq_true, Bool.not_eq_eq_eq_not,
      Bool.not_true] at hx
    rw [hx.1] at hp
    exact Bool.false_ne_true hp
  | case2 w1 s w2 rest2 hp ih =>
    intro hx
    have hx2 : cleanP f1 f2 (Tok.word w2 :: rest2) = true := by
      simp only [cleanP, Bool.and_eq_true] at hx ⊢
      exact hx.2
    simp only [subPairRule, if_neg hp]
    rw [ih hx2]
  | case3 t rest h ih =>
    intro hx
    cases t with
    | word w =>
      have hx2 : cleanP f1 f2 rest = true := (Bool.and_eq_true _ _ |>.mp hx).2
      match rest with
      | [] => simp [subPairRule]
      | Tok.word u :: r2 =>
        have := ih hx2
        simp only [subPairRule] at this ⊢
        rw [this]
      | Tok.sep s :: [] =>
        simp [subPairRule]
      | Tok.sep s :: Tok.sep s2 :: r3 =>
        have h0 := ih hx2
        simp only [subPairRule_cons_sep, List.cons.injEq, true_and] at h0
        simp only [subPairRule]
        rw [h0]
      | Tok.sep s :: Tok.word w2 :: r3 =>
        exact (h w s w2 r3 rfl rfl).elim
    | sep s =>
      have hx2 : cleanP f1 f2 rest = true := hx
      rw [subPairRule_cons_sep, ih hx2]
  | case4 => intro _; simp [subPairRule]

end BotMain

namespace BotMain

/-- The two-word rule leaves no match of itself, provided neither
replacement word matches either half of the pattern. -/
theorem cleanP_subPairRule_self {f1 f2 : List String} {ra rb : String}
    (ha1 : wordMatches f1 ra = false) (ha2 : wordMatches f2 ra = false)
    (hb1 : wordMatches f1 rb = false) :
    ∀ x, cleanP f1 f2 (subPairRule f1 f2 ra rb x) = true := by
  intro x
  induction x using subPairRule.induct f1 f2 ra rb with
  | case1 w1 s w2 rest2 hp ih =>
    simp only [subPairRule, if_pos hp]
    simp only [cleanP, Bool.and_eq_true]
    refine ⟨?_, ?_, ih⟩
    · show (!pairAt f1 f2 ra " " rb) = true
      simp [pairAt, ha1]
    · show pairGuard f1 f2 rb (subPairRule f1 f2 ra rb rest2) = true
      match subPairRule f1 f2 ra rb rest2 with
      | [] => rfl
      | Tok.word _ :: _ => rfl
      | Tok.sep _ :: [] => rfl
      | Tok.sep _ :: Tok.sep _ :: _ => rfl
      | Tok.sep s2 :: Tok.word u :: _ =>
        show (!pairAt f1 f2 rb s2 u) = true
        simp [pairAt, hb1]
  | case2 w1 s w2 rest2 hp ih =>
    have hp2 : pairAt f1 f2 w1 s w2 = false := Bool.eq_false_iff.mpr hp
    simp only [subPairRule, if_neg hp]
    rcases subPairRule_head_word f1 f2 ra rb w2 rest2 with ⟨ys, hq⟩ | ⟨ys, hq⟩
    · rw [hq]
      rw [hq] at ih
      simp only [cleanP, Bool.and_eq_true] at ih ⊢
      refine ⟨?_, ih⟩
      show (!pairAt f1 f2 w1 s ra) = true
      simp [pairAt, ha2]
    · rw [hq]
      rw [hq] at ih
      simp only [cleanP, Bool.and_eq_true] at ih ⊢
      refine ⟨?_, ih⟩
      show (!pairAt f1 f2 w1 s w2) = true
      simp [hp2]
  | case3 t rest h ih =>
    cases t with
    | sep s =>
      rw [subPairRule_cons_sep, cleanP_cons_sep]
      exact ih
    | word w =>
      match rest with
      | [] => simp [subPairRule, cleanP, pairGuard]
      | Tok.word u :: r2 =>
        simp only [subPairRule] at ih ⊢
        rcases subPairRule_head_word f1 f2 ra rb u r2 with ⟨ys, hq⟩ | ⟨ys, hq⟩ <;>
          rw [hq] at ih ⊢ <;>
          simpa [cleanP, pairGuard] using ih
      | Tok.sep s :: [] =>
        simp [subPairRule, cleanP, pairGuard]
      | Tok.sep s :: Tok.sep s2 :: r3 =>
        simp only [subPairRule_cons_sep, cleanP_cons_sep] at ih
        simp only [subPairRule]
        simp only [cleanP, Bool.and_eq_true, cleanP_cons_sep]
        exact ⟨rfl, ih⟩
      | Tok.sep s :: Tok.word w2 :: r3 =>
        exact (h w s w2 r3 rfl rfl).elim
  | case4 => simp [subPairRule, cleanP]

/-- The two-word rule preserves `cleanW` for any form set its
replacement words do not match. -/
theorem cleanW_subPairRule {F f1 f2 : List String} {ra rb : String}
    (ha : wordMatches F ra = false) (hb : wordMatches F rb = false) :
    ∀ x, cleanW F x = true → cleanW F (subPairRule f1 f2 ra rb x) = true := by
  intro x
  induction x using subPairRule.induct f1 f2 ra rb with
  | case1 w1 s w2 rest2 hp ih =>
    intro hx
    simp only [cleanW, Bool.and_eq_true] at hx
    simp only [subPairRule, if_pos hp]
    simp only [cleanW, Bool.and_eq_true, Bool.not_eq_eq_eq_not, Bool.not_true]
    exact ⟨ha, hb, ih hx.2.2⟩
  | case2 w1 s w2 rest2 hp ih =>
    intro hx
    simp only [cleanW, Bool.and_eq_true] at hx
    simp only [subPairRule, if_neg hp]
    simp only [cleanW, Bool.and_eq_true]
    refine ⟨hx.1, ?_⟩
    refine ih ?_
    simp only [cleanW, Bool.and_eq_true]
    exact hx.2
  | case3 t rest h ih =>
    intro hx
    cases t with
    | sep s =>
      rw [subPairRule_cons_sep]
      simp only [cleanW] at hx ⊢
      exact ih hx
    | word w =>
      simp only [cleanW, Bool.and_eq_true] at hx
      match rest with
      | [] => simp [subPairRule, cleanW, hx.1]
      | Tok.word u :: r2 =>
        simp only [subPairRule]
        simp only [cleanW, Bool.and_eq_true]
        exact ⟨hx.1, ih hx.2⟩
      | Tok.sep s :: [] =>
        simp [subPairRule, cleanW, hx.1]
      | Tok.sep s :: Tok.sep s2 :: r3 =>
        have h0 := ih hx.2
        simp only [subPairRule_cons_sep, cleanW] at h0
        simp only [subPairRule]
        simp only [cleanW, Bool.and_eq_true]
        exact ⟨hx.1, h0⟩
      | Tok.sep s :: Tok.word w2 :: r3 =>
        exact (h w s w2 r3 rfl rfl).elim
  | case4 => intro _; simp [subPairRule, cleanW]

end BotMain

namespace BotMain

/-- One ES→EN pass leaves a text on which every ES→EN rule is the
identity, so the pass is idempotent. -/
theorem es_en_apply_idem (x : List Tok) :
    es_en_apply (es_en_apply x) = es_en_apply x := by
  unfold es_en_apply
  set z0 := subPairRule DEP_FORMS MIN_FORMS "minimum" "deposit" x with hz0
  set z1 := subWordRule SENAL_FORMS "signal" z0 with hz1
  set z2 := subWordRule APAL_FORMS "leverage" z1 with hz2
  set z3 := subWordRule CUENTA_FORMS "account" z2 with hz3
  set z4 := subWordRule RETIRAD_FORMS "withdrawal" z3 with hz4
  have hP0 : cleanP DEP_FORMS MIN_FORMS z0 = true :=
    cleanP_subPairRule_self (by decide) (by decide) (by decide) x
  have hP1 : cleanP DEP_FORMS MIN_FORMS z1 = true :=
    cleanP_subWordRule _ _ _ (by decide) (by decide) z0 hP0
  have hP2 : cleanP DEP_FORMS MIN_FORMS z2 = true :=
    cleanP_subWordRule _ _ _ (by decide) (by decide) z1 hP1
  have hP3 : cleanP DEP_FORMS MIN_FORMS z3 = true :=
    cleanP_subWordRule _ _ _ (by decide) (by decide) z2 hP2
  have hP4 : cleanP DEP_FORMS MIN_FORMS z4 = true :=
    cleanP_subWordRule _ _ _ (by decide) (by decide) z3 hP3
  have hS1 : cleanW SENAL_FORMS z1 = true := cleanW_subWordRule_self (by decide) z0
  have hS2 : cleanW SENAL_FORMS z2 = true :=
    cleanW_subWordRule_other _ (by decide) z1 hS1
  have hS3 : cleanW SENAL_FORMS z3 = true :=
    cleanW_subWordRule_other _ (by decide) z2 hS2
  have hS4 : cleanW SENAL_FORMS z4 = true :=
    cleanW_subWordRule_other _ (by decide) z3 hS3
  have hA2 : cleanW APAL_FORMS z2 = true := cleanW_subWordRule_self (by decide) z1
  have hA3 : cleanW APAL_FORMS z3 = true :=
    cleanW_subWordRule_other _ (by decide) z2 hA2
  have hA4 : cleanW APAL_FORMS z4 = true :=
    cleanW_subWordRule_other _ (by decide) z3 hA3
  have hC3 : cleanW CUENTA_FORMS z3 = true := cleanW_subWordRule_self (by decide) z2
  have hC4 : cleanW CUENTA_FORMS z4 = true :=
    cleanW_subWordRule_other _ (by decide) z3 hC3
  have hR4 : cleanW RETIRAD_FORMS z4 = true := cleanW_subWordRule_self (by decide) z3
  rw [subPairRule_id _ _ _ _ z4 hP4, subWordRule_id _ _ z4 hS4,
    subWordRule_id _ _ z4 hA4, subWordRule_id _ _ z4 hC4,
    subWordRule_id _ _ z4 hR4]

/-- One EN→ES pass leaves a text on which every EN→ES rule is the
identity, so the pass is idempotent. -/
theorem en_es_apply_idem (x : List Tok) :
    en_es_apply (en_es_apply x) = en_es_apply x := by
  unfold en_es_apply
  set z0 := subPairRule MINIMUM_FORMS DEPOSIT_FORMS "depósito" "mínimo" x with hz0
  set z1 := subWordRule SIGNAL_FORMS "señal" z0 with hz1
  set z2 := subWordRule LEVERAGE_FORMS "apalancamiento" z1 with hz2
  set z3 := subWordRule ACCOUNT_FORMS "cuenta" z2 with hz3
  set z4 := subWordRule WITHDRAWAL_FORMS "retiro" z3 with hz4
  have hP0 : cleanP MINIMUM_FORMS DEPOSIT_FORMS z0 = true :=
    cleanP_subPairRule_self (by decide) (by decide) (by decide) x
  have hP1 : cleanP MINIMUM_FORMS DEPOSIT_FORMS z1 = true :=
    cleanP_subWordRule _ _ _ (by decide) (by decide) z0 hP0
  have hP2 : cleanP MINIMUM_FORMS DEPOSIT_FORMS z2 = true :=
    cleanP_subWordRule _ _ _ (by decide) (by decide) z1 hP1
  have hP3 : cleanP MINIMUM_FORMS DEPOSIT_FORMS z3 = true :=
    cleanP_subWordRule _ _ _ (by decide) (by decide) z2 hP2
  have hP4 : cleanP MINIMUM_FORMS DEPOSIT_FORMS z4 = true :=
    cleanP_subWordRule _ _ _ (by decide) (by decide) z3 hP3
  have hS1 : cleanW SIGNAL_FORMS z1 = true := cleanW_subWordRule_self (by decide) z0
  have hS2 : cleanW SIGNAL_FORMS z2 = true :=
    cleanW_subWordRule_other _ (by decide) z1 hS1
  have hS3 : cleanW SIGNAL_FORMS z3 = true :=
    cleanW_subWordRule_other _ (by decide) z2 hS2
  have hS4 : cleanW SIGNAL_FORMS z4 = true :=
    cleanW_subWordRule_other _ (by decide) z3 hS3
  have hA2 : cleanW LEVERAGE_FORMS z2 = true := cleanW_subWordRule_self (by decide) z1
  have hA3 : cleanW LEVERAGE_FORMS z3 = true :=
    cleanW_subWordRule_other _ (by decide) z2 hA2
  have hA4 : cleanW LEVERAGE_FORMS z4 = true :=
    cleanW_subWordRule_other _ (by decide) z3 hA3
  have hC3 : cleanW ACCOUNT_FORMS z3 = true := cleanW_subWordRule_self (by decide) z2
  have hC4 : cleanW ACCOUNT_FORMS z4 = true :=
    cleanW_subWordRule_other _ (by decide) z3 hC3
  have hR4 : cleanW WITHDRAWAL_FORMS z4 = true := cleanW_subWordRule_self (by decide) z3
  rw [subPairRule_id _ _ _ _ z4 hP4, subWordRule_id _ _ z4 hS4,
    subWordRule_id _ _ z4 hA4, subWordRule_id _ _ z4 hC4,
    subWordRule_id _ _ z4 hR4]

/-- Claim C6: glossary application is idempotent — for every tokenized
input text, every direction, and either setting of the glossary switch,
applying the post-processor twice equals applying it once (no rule's
replacement matches any rule's pattern, so a processed text is a fixed
point of every rule). -/
theorem c6_glossary_idempotent (useGlossary : Bool) (direction : String × String)
    (x : List Tok) :
    apply_local_glossary useGlossary (apply_local_glossary useGlossary x direction)
        direction
      = apply_local_glossary useGlossary x direction := by
  unfold apply_local_glossary
  split_ifs <;>
    first
    | rfl
    | exact es_en_apply_idem x
    | exact en_es_apply_idem x

end BotMain
